import Mathlib

/-!
Shallow embedding of the message-relay bot (`src/main.py`).

Timestamps are modelled as integer seconds together with an awareness flag
mirroring Python `datetime.tzinfo` (every aware value in the program carries
`timezone.utc`).  The PostgreSQL tables are modelled as a function map for
`users`, an association list for `admins` (preserving insertion order for
`get_admins`), and a record of counters for `stats`.  Outbound transport
sends are modelled by a per-destination success predicate; message formatting
that does not influence control flow or state is collapsed into reply
constructors.
-/

namespace Bot

/-- `OWNER_ID` from the configuration block of `main.py`. -/
def OWNER_ID : Int := 989062605

/-- `RATE_LIMIT_MINUTES` from the configuration block of `main.py`. -/
def RATE_LIMIT_MINUTES : Nat := 10

/-- `MAX_BAN_HOURS` from the configuration block of `main.py`. -/
def MAX_BAN_HOURS : Nat := 720

/-- A Python `datetime`: an instant in integer seconds plus the presence of
`tzinfo`.  All aware datetimes in the program carry `timezone.utc`, so the
instant of an aware value is just `secs`; a naive value holds the same wall
clock reading but no timezone. -/
structure Timestamp where
  secs : Int
  aware : Bool
  deriving DecidableEq, Repr

/-- `t.replace(tzinfo=timezone.utc)`: attaches UTC, keeping the clock reading. -/
def Timestamp.replaceUtc (t : Timestamp) : Timestamp :=
  { t with aware := true }

/-- `datetime.now(timezone.utc)` at instant `s`. -/
def Timestamp.utc (s : Int) : Timestamp := ⟨s, true⟩

/-- A naive `datetime` (no `tzinfo`) with clock reading `s`. -/
def Timestamp.naive (s : Int) : Timestamp := ⟨s, false⟩

/-- A row of the `users` table (`init_db` in `main.py`).  SQL defaults:
`is_banned FALSE`, `messages_sent 0`, nullable timestamps and text. -/
structure UserRecord where
  username : Option String
  first_name : Option String
  last_name : Option String
  last_message_time : Option Timestamp
  is_banned : Bool
  ban_until : Option Timestamp
  ban_reason : Option String
  messages_sent : Nat
  deriving DecidableEq, Repr

/-- A freshly inserted `users` row: only the display columns are supplied,
every other column takes its SQL default. -/
def defaultUser (un fn ln : Option String) : UserRecord :=
  { username := un, first_name := fn, last_name := ln,
    last_message_time := none, is_banned := false,
    ban_until := none, ban_reason := none, messages_sent := 0 }

/-- A row of the `admins` table. -/
structure AdminEntry where
  added_by : Int
  is_active : Bool
  deriving DecidableEq, Repr

/-- The single row of the `stats` table. -/
structure Stats where
  total_messages : Nat
  successful_forwards : Nat
  failed_forwards : Nat
  bans_issued : Nat
  rate_limit_blocks : Nat
  deriving DecidableEq, Repr

/-- `update_stats(**kwargs)`: add the given increments to the counters. -/
def addStats (s : Stats) (tm sf ff bi rl : Nat) : Stats :=
  { total_messages := s.total_messages + tm,
    successful_forwards := s.successful_forwards + sf,
    failed_forwards := s.failed_forwards + ff,
    bans_issued := s.bans_issued + bi,
    rate_limit_blocks := s.rate_limit_blocks + rl }

/-- The persistent state: the three tables of `init_db`. -/
structure World where
  users : Int → Option UserRecord
  admins : List (Int × AdminEntry)
  stats : Stats

/-- The Python `TypeError` raised on aware-minus-naive datetime subtraction. -/
inductive PyErr
  | typeError
  deriving DecidableEq, Repr

/-- The second component of `check_ban_status`'s result, abstracting the
human-readable strings `""`, `f"до {...}"` and `"навсегда"`. -/
inductive BanDetail
  | noDetail
  | untilTime (secs : Int)
  | permanent
  deriving DecidableEq, Repr

/-- `message.answer(...)` replies sent back to the caller of a command,
keyed by which branch of the handler produced them. -/
inductive Reply
  | noPermission
  | banUsage
  | invalidPeerId
  | cannotBanAdmin
  | banDurationError
  | banSuccess (peer : Int)
  | unbanUsage
  | unbanSuccess (peer : Int)
  | notBanned (peer : Int)
  | adminMenu
  | invalidId
  | ownerAlreadyAdmin
  | adminAdded (target : Int)
  | adminAddFailed
  | cannotRemoveOwner
  | adminRemoved (target : Int)
  | adminRemoveFailed
  | adminListing
  | statsReport
  | usersReport
  | adminHelp
  | userHelp
  deriving DecidableEq, Repr

/-- Terminal state of `handle_user_message` for one inbound message. -/
inductive Outcome
  | bannedReply (detail : BanDetail)
  | rateLimited (remaining : Int)
  | relayed (successCount : Nat)
  | relayFailed
  | uncaught (e : PyErr)
  deriving DecidableEq, Repr

/-- Whether the outcome is a successful relay. -/
def Outcome.isRelayed : Outcome → Bool
  | .relayed _ => true
  | _ => false

/-- Python `int(...)` applied to a float: truncation toward zero. -/
def pyInt (q : ℚ) : ℤ :=
  if 0 ≤ q then ⌊q⌋ else ⌈q⌉

/-- Decimal value of a digit string. -/
def digitsVal (l : List Char) : Nat :=
  l.foldl (fun acc c => acc * 10 + (c.toNat - 48)) 0

/-- Python `str.isdigit` restricted to ASCII decimal strings. -/
def pyIsDigit (s : String) : Bool :=
  !s.toList.isEmpty && s.toList.all Char.isDigit

/-- Python `int(str)` restricted to an optional leading minus sign followed
by decimal digits (the only shapes the bot's commands receive); `none`
models the `ValueError` branch. -/
def pyParseInt (s : String) : Option Int :=
  match s.toList with
  | '-' :: rest =>
    if !rest.isEmpty && rest.all Char.isDigit then some (-(digitsVal rest : Int)) else none
  | l =>
    if !l.isEmpty && l.all Char.isDigit then some ((digitsVal l : Int)) else none

/-- Overwrite (or insert) the `users` row of `uid`. -/
def setUser (w : World) (uid : Int) (r : UserRecord) : World :=
  { w with users := fun x => if x = uid then some r else w.users x }

/-- `Database.get_user`. -/
def db_get_user (w : World) (uid : Int) : Option UserRecord :=
  w.users uid

/-- `Database.save_user(user_id, username=.., first_name=.., last_name=..)`:
updates the display columns of an existing row, otherwise inserts a new row
with SQL defaults for all remaining columns. -/
def db_save_user_display (w : World) (uid : Int) (un fn ln : Option String) : World :=
  match w.users uid with
  | some r => setUser w uid { r with username := un, first_name := fn, last_name := ln }
  | none => setUser w uid (defaultUser un fn ln)

/-- `Database.save_user(user_id)` with no keyword arguments: an existing row
is left unchanged (only `updated_at` moves), a missing row is inserted with
all defaults. -/
def db_save_user_bare (w : World) (uid : Int) : World :=
  match w.users uid with
  | some _ => w
  | none => setUser w uid (defaultUser none none none)

/-- `Database.update_user_last_message`: SQL UPDATE, a no-op on a missing row. -/
def db_update_user_last_message (w : World) (uid : Int) (t : Timestamp) : World :=
  match w.users uid with
  | some r => setUser w uid { r with last_message_time := some t }
  | none => w

/-- `Database.update_user_stats(user_id, increment_messages=True)`. -/
def db_update_user_stats (w : World) (uid : Int) : World :=
  match w.users uid with
  | some r => setUser w uid { r with messages_sent := r.messages_sent + 1 }
  | none => w

/-- `Database.ban_user`: sets `is_banned`, `ban_reason`, `ban_until`. -/
def db_ban_user (w : World) (uid : Int) (reason : String) (ban_until : Option Timestamp) : World :=
  match w.users uid with
  | some r => setUser w uid { r with is_banned := true, ban_reason := some reason, ban_until := ban_until }
  | none => w

/-- `Database.unban_user`: clears the ban columns. -/
def db_unban_user (w : World) (uid : Int) : World :=
  match w.users uid with
  | some r => setUser w uid { r with is_banned := false, ban_reason := none, ban_until := none }
  | none => w

/-- `Database.add_admin`: upsert with `is_active = TRUE` (`ON CONFLICT DO
UPDATE`); the boolean mirrors the Python return value, which is `True`
whenever the query itself does not fail. -/
def db_add_admin (w : World) (uid grantor : Int) : World × Bool :=
  if w.admins.any (fun p => p.1 == uid) then
    ({ w with admins := w.admins.map (fun p => if p.1 == uid then (p.1, ⟨grantor, true⟩) else p) }, true)
  else
    ({ w with admins := w.admins ++ [(uid, ⟨grantor, true⟩)] }, true)

/-- `Database.remove_admin`: refuses the owner, otherwise deletes the row. -/
def db_remove_admin (w : World) (uid : Int) : World × Bool :=
  if uid = OWNER_ID then (w, false)
  else ({ w with admins := w.admins.filter (fun p => !(p.1 == uid)) }, true)

/-- `Database.get_admins`: ids of rows with `is_active = TRUE`. -/
def db_get_admins (w : World) : List Int :=
  (w.admins.filter (fun p => p.2.is_active)).map (fun p => p.1)

/-- `Database.is_admin`: the owner, or an active `admins` row. -/
def db_is_admin (w : World) (uid : Int) : Bool :=
  if uid = OWNER_ID then true
  else w.admins.any (fun p => p.1 == uid && p.2.is_active)

/-- `MessageForwardingBot.check_ban_status` at current instant `now`:
returns the possibly mutated world (ban-expiry auto-clear) together with
the `(banned, detail)` pair. -/
def check_ban_status (w : World) (uid : Int) (now : Int) : World × Bool × BanDetail :=
  match db_get_user w uid with
  | none => (w, false, .noDetail)
  | some u =>
    if u.is_banned = false then (w, false, .noDetail)
    else
      match u.ban_until with
      | some bu =>
        if (Timestamp.replaceUtc bu).secs < now then
          (db_unban_user w uid, false, .noDetail)
        else (w, true, .untilTime bu.secs)
      | none => (w, true, .permanent)

/-- `MessageForwardingBot.check_rate_limit` at current instant `now`.
The source reads

    last_time = user_data['last_message_time']
    if last_time.tzinfo:
        last_time = last_time.replace(tzinfo=timezone.utc)
    time_diff = (datetime.now(timezone.utc) - last_time).total_seconds() / 60

so the UTC attachment happens only when `tzinfo` is already present, and the
subtraction of a naive `last_time` from the aware `now` raises `TypeError`,
modelled by the `Except.error` branch. -/
def check_rate_limit (w : World) (uid : Int) (now : Int) : Except PyErr (Bool × Int) :=
  match db_get_user w uid with
  | none => .ok (true, 0)
  | some u =>
    match u.last_message_time with
    | none => .ok (true, 0)
    | some lt =>
      let last_time := if lt.aware then lt.replaceUtc else lt
      if last_time.aware then
        let time_diff : ℚ := ((now - last_time.secs : ℤ) : ℚ) / 60
        if time_diff < (RATE_LIMIT_MINUTES : ℚ) then
          .ok (false, (RATE_LIMIT_MINUTES : ℤ) - pyInt time_diff)
        else .ok (true, 0)
      else .error .typeError

/-- The per-destination delivery loop of `handle_user_message`
(lines 741-747): each destination is attempted inside its own
`try`/`except`, a failure only skips the `success_count += 1`.  Returns the
count of successes and the list of destinations actually attempted. -/
def relay (sendOk : Int → Bool) : List Int → Nat × List Int
  | [] => (0, [])
  | a :: rest =>
    let r := relay sendOk rest
    if sendOk a then (r.1 + 1, a :: r.2) else (r.1, a :: r.2)

/-- The relay block of `handle_user_message` (lines 722-769): send to every
active admin, then either record the success (`last_message_time`,
`messages_sent`, `successful_forwards += success_count`) or raise, landing
in the `except` arm that does `failed_forwards += 1`. -/
def relayPhase (w : World) (uid : Int) (sendOk : Int → Bool) (now : Int) : World × Outcome :=
  let dests := db_get_admins w
  let k := (relay sendOk dests).1
  if 0 < k then
    let wa := db_update_user_last_message w uid (Timestamp.utc now)
    let wb := db_update_user_stats wa uid
    ({ wb with stats := addStats wb.stats 0 k 0 0 0 }, .relayed k)
  else
    ({ w with stats := addStats w.stats 0 0 1 0 0 }, .relayFailed)

/-- `handle_user_message`: the catch-all message handler.  `un`, `fn`, `ln`
are the sender's display fields, `sendOk` tells which outbound sends
succeed.  The rate-limit check sits outside the handler's `try` block, so a
`TypeError` escaping it aborts the handler (`Outcome.uncaught`). -/
def handle_user_message (w : World) (uid : Int) (un fn ln : Option String)
    (sendOk : Int → Bool) (now : Int) : World × Outcome :=
  let w1 := { w with stats := addStats w.stats 1 0 0 0 0 }
  let w2 := db_save_user_display w1 uid un fn ln
  match check_ban_status w2 uid now with
  | (w3, true, detail) => (w3, .bannedReply detail)
  | (w3, false, _) =>
    if db_is_admin w3 uid then relayPhase w3 uid sendOk now
    else
      match check_rate_limit w3 uid now with
      | .error e => (w3, .uncaught e)
      | .ok (false, remaining) =>
        ({ w3 with stats := addStats w3.stats 0 0 0 0 1 }, .rateLimited remaining)
      | .ok (true, _) => relayPhase w3 uid sendOk now

/-- `" ".join(tokens)`. -/
def joinSpace (l : List String) : String :=
  String.intercalate " " l

/-- `/ban` command handler (`cmd_ban`).  `args` is `message.text.split()[1:]`.
The chat-info fetch (`bot.get_chat`) is external transport; its failure arm
`save_user(user_id=peer_id)` is the modelled persistence effect, so display
fields of the target are elided.  Notifications to other admins and to the
banned user are external sends with no state effect and are elided. -/
def cmd_ban (w : World) (caller : Int) (args : List String) (now : Int) : World × List Reply :=
  if db_is_admin w caller then
    match args with
    | [] => (w, [.banUsage])
    | [_] => (w, [.banUsage])
    | a0 :: rest =>
      match pyParseInt a0 with
      | none => (w, [.invalidPeerId])
      | some peer_id =>
        if db_is_admin w peer_id then (w, [.cannotBanAdmin])
        else
          let args' := a0 :: rest
          let lastTok := args'.getLastD ""
          let withHours := decide (args'.length > 2) && pyIsDigit lastTok
          let hoursOpt : Option Nat := if withHours then some (digitsVal lastTok.toList) else none
          let reason := if withHours then joinSpace rest.dropLast else joinSpace rest
          let badDuration :=
            match hoursOpt with
            | none => false
            | some h => decide (h ≠ 0) && (decide (h ≤ 0) || decide (h > MAX_BAN_HOURS))
          if badDuration then (w, [.banDurationError])
          else
            let w := db_save_user_bare w peer_id
            let ban_until : Option Timestamp :=
              match hoursOpt with
              | some h => if h ≠ 0 then some (Timestamp.utc (now + (h : Int) * 3600)) else none
              | none => none
            let w := db_ban_user w peer_id reason ban_until
            let w := { w with stats := addStats w.stats 0 0 0 1 0 }
            (w, [.banSuccess peer_id])
  else (w, [.noPermission])

/-- `/unban` command handler (`cmd_unban`). -/
def cmd_unban (w : World) (caller : Int) (args : List String) : World × List Reply :=
  if db_is_admin w caller then
    match args with
    | [] => (w, [.unbanUsage])
    | a0 :: _ =>
      match pyParseInt a0 with
      | none => (w, [.invalidPeerId])
      | some peer_id =>
        match db_get_user w peer_id with
        | some u =>
          if u.is_banned then (db_unban_user w peer_id, [.unbanSuccess peer_id])
          else (w, [.notBanned peer_id])
        | none => (w, [.notBanned peer_id])
  else (w, [.noPermission])

/-- `/admin` command handler (`cmd_admin`).  `args` is the token list after
the command word, already lowercased for the action token as the source does
with `.lower()`.  The chat-info fetch in the `add` arm is external transport
(its `except: pass` arm stores nothing), so it is elided. -/
def cmd_admin (w : World) (caller : Int) (args : List String) : World × List Reply :=
  if db_is_admin w caller then
    match args with
    | [] => (w, [.adminMenu])
    | [a1] => if a1 = "list" then (w, [.adminListing]) else (w, [])
    | action :: idTok :: _ =>
      match pyParseInt idTok with
      | none => (w, [.invalidId])
      | some target =>
        if action = "add" then
          if target = OWNER_ID then (w, [.ownerAlreadyAdmin])
          else
            let res := db_add_admin w target caller
            if res.2 then (res.1, [.adminAdded target]) else (res.1, [.adminAddFailed])
        else if action = "remove" then
          if target = OWNER_ID then (w, [.cannotRemoveOwner])
          else
            let res := db_remove_admin w target
            if res.2 then (res.1, [.adminRemoved target]) else (res.1, [.adminRemoveFailed])
        else (w, [])
  else (w, [.noPermission])

/-- `/stats` command handler (`cmd_stats`): a bare `return` for non-admins
(no reply at all), a read-only report for admins, abstracted to one reply. -/
def cmd_stats (w : World) (caller : Int) : World × List Reply :=
  if db_is_admin w caller then (w, [.statsReport]) else (w, [])

/-- `/users` command handler (`cmd_users`): a bare `return` for non-admins,
a read-only listing for admins, abstracted to one reply. -/
def cmd_users (w : World) (caller : Int) : World × List Reply :=
  if db_is_admin w caller then (w, [.usersReport]) else (w, [])

/-- `/help` command handler (`cmd_help`): admin help for admins, user help
for everyone else. -/
def cmd_help (w : World) (caller : Int) : World × List Reply :=
  if db_is_admin w caller then (w, [.adminHelp]) else (w, [.userHelp])

/-! ### Concrete states used to evaluate the model -/

/-- The freshly initialized `stats` row. -/
def stats0 : Stats := ⟨0, 0, 0, 0, 0⟩

/-- The state right after `init_db`: no users, the owner as sole admin. -/
def wBase : World :=
  { users := fun _ => none, admins := [(OWNER_ID, ⟨OWNER_ID, true⟩)], stats := stats0 }

/-- A user whose stored `last_message_time` is timezone-naive, as a
`TIMESTAMP` column without time zone yields. -/
def rNaive : UserRecord :=
  { defaultUser none none none with last_message_time := some (Timestamp.naive 0) }

/-- `wBase` plus user `7` carrying a naive `last_message_time`. -/
def wNaive : World :=
  { wBase with users := fun x => if x = 7 then some rNaive else none }

/-- A user whose stored `last_message_time` lies in the future (clock skew). -/
def rFuture : UserRecord :=
  { defaultUser none none none with last_message_time := some (Timestamp.utc 750) }

/-- `wBase` plus user `9` whose last message time is 150 seconds ahead of
the test instant `600`. -/
def wFuture : World :=
  { wBase with users := fun x => if x = 9 then some rFuture else none }

/-- A user banned until the (naive) instant `100`. -/
def rBanned : UserRecord :=
  { defaultUser none none none with
    is_banned := true, ban_until := some (Timestamp.naive 100), ban_reason := some "x" }

/-- `wBase` plus user `3` whose ban expired before the test instant `200`. -/
def wBanned : World :=
  { wBase with users := fun x => if x = 3 then some rBanned else none }

/-- A user who last wrote at UTC instant `0`. -/
def rRated : UserRecord :=
  { defaultUser none none none with last_message_time := some (Timestamp.utc 0) }

/-- `wBase` plus user `10` who last wrote at instant `0`. -/
def wRated : World :=
  { wBase with users := fun x => if x = 10 then some rRated else none }

/-! ### Helper lemmas -/

theorem setUser_users_self (w : World) (uid : Int) (r : UserRecord) :
    (setUser w uid r).users uid = some r := by
  simp [setUser]

theorem setUser_users_other (w : World) (uid x : Int) (r : UserRecord) (h : x ≠ uid) :
    (setUser w uid r).users x = w.users x := by
  simp [setUser, h]

theorem setUser_stats (w : World) (uid : Int) (r : UserRecord) :
    (setUser w uid r).stats = w.stats := rfl

theorem relay_attempts_all (sendOk : Int → Bool) (l : List Int) :
    (relay sendOk l).2 = l := by
  induction l with
  | nil => rfl
  | cons a rest ih =>
    simp only [relay]
    cases sendOk a <;> simp [ih]

theorem relay_count_filter (sendOk : Int → Bool) (l : List Int) :
    (relay sendOk l).1 = (l.filter sendOk).length := by
  induction l with
  | nil => rfl
  | cons a rest ih =>
    simp only [relay, List.filter]
    cases h : sendOk a <;> simp [h, ih]

theorem update_last_message_stats (w : World) (uid : Int) (t : Timestamp) :
    (db_update_user_last_message w uid t).stats = w.stats := by
  unfold db_update_user_last_message
  cases w.users uid <;> rfl

theorem update_user_stats_stats (w : World) (uid : Int) :
    (db_update_user_stats w uid).stats = w.stats := by
  unfold db_update_user_stats
  cases w.users uid <;> rfl

/-! ### Claims -/

/-- C1: for a relay to `N` admin destinations of which `K` succeed, every
destination is attempted independently (the attempted list is the whole
destination list regardless of failures), the success count is `K`
(the number of destinations for which the send succeeds),
`successful_forwards` grows by exactly `K`, `failed_forwards` grows by `1`
precisely when `K = 0`, and the relay outcome is `relayFailed` iff `K = 0`
and otherwise reports `K`. -/
theorem relay_independent_success_count (w : World) (uid : Int) (sendOk : Int → Bool) (now : Int) :
    (relay sendOk (db_get_admins w)).2 = db_get_admins w ∧
    (relay sendOk (db_get_admins w)).1 = ((db_get_admins w).filter sendOk).length ∧
    ((relayPhase w uid sendOk now).1).stats.successful_forwards
      = w.stats.successful_forwards + (relay sendOk (db_get_admins w)).1 ∧
    ((relayPhase w uid sendOk now).1).stats.failed_forwards
      = w.stats.failed_forwards + (if (relay sendOk (db_get_admins w)).1 = 0 then 1 else 0) ∧
    ((relayPhase w uid sendOk now).2 = Outcome.relayFailed
      ↔ (relay sendOk (db_get_admins w)).1 = 0) ∧
    (∀ k, (relayPhase w uid sendOk now).2 = Outcome.relayed k
      ↔ (relay sendOk (db_get_admins w)).1 = k ∧ 0 < k) := by
  unfold relayPhase
  by_cases h : 0 < (relay sendOk (db_get_admins w)).1
  · have h0 : (relay sendOk (db_get_admins w)).1 ≠ 0 := Nat.pos_iff_ne_zero.mp h
    refine ⟨relay_attempts_all sendOk _, relay_count_filter sendOk _, ?_, ?_, ?_, ?_⟩
    · simp [h, addStats, update_user_stats_stats, update_last_message_stats]
    · simp [h, h0, addStats, update_user_stats_stats, update_last_message_stats]
    · simp [h, h0]
    · intro k
      simp only [h, if_true]
      constructor
      · intro he
        cases he
        exact ⟨rfl, h⟩
      · rintro ⟨rfl, _⟩
        rfl
  · have h0 : (relay sendOk (db_get_admins w)).1 = 0 := Nat.eq_zero_of_not_pos h
    refine ⟨relay_attempts_all sendOk _, relay_count_filter sendOk _, ?_, ?_, ?_, ?_⟩
    · simp [h, h0, addStats]
    · simp [h, h0, addStats]
    · simp [h, h0]
    · intro k
      rw [if_neg h]
      constructor
      · intro he
        exact Outcome.noConfusion he
      · rintro ⟨hk, hpos⟩
        omega

/-- C3: a user record with `is_banned` true and `ban_until` in the past is
reported not-banned by `check_ban_status`, which clears the ban state as a
side effect; a second call on the cleared state returns the same result
without further mutation. -/
theorem check_ban_status_expired_clears (w : World) (uid : Int) (now : Int)
    (r : UserRecord) (bu : Timestamp) (h1 : db_get_user w uid = some r)
    (h2 : r.is_banned = true) (h3 : r.ban_until = some bu) (h4 : bu.secs < now) :
    check_ban_status w uid now = (db_unban_user w uid, false, BanDetail.noDetail) ∧
    (db_unban_user w uid).users uid
      = some { r with is_banned := false, ban_until := none, ban_reason := none } ∧
    check_ban_status (db_unban_user w uid) uid now
      = (db_unban_user w uid, false, BanDetail.noDetail) := by
  have hstep : check_ban_status w uid now = (db_unban_user w uid, false, BanDetail.noDetail) := by
    unfold check_ban_status
    rw [h1]
    simp [h2, h3, Timestamp.replaceUtc, h4]
  have hclr : (db_unban_user w uid).users uid
      = some { r with is_banned := false, ban_until := none, ban_reason := none } := by
    unfold db_unban_user db_get_user at *
    rw [h1]
    exact setUser_users_self ..
  refine ⟨hstep, hclr, ?_⟩
  unfold check_ban_status
  rw [show db_get_user (db_unban_user w uid) uid
        = some { r with is_banned := false, ban_until := none, ban_reason := none } from hclr]
  simp

/-- C3 witness: user `3` of `wBanned` is banned until instant `100` and is
checked at instant `200`. -/
theorem check_ban_status_expired_clears_witness :
    check_ban_status wBanned 3 200 = (db_unban_user wBanned 3, false, BanDetail.noDetail) ∧
    (db_unban_user wBanned 3).users 3
      = some { rBanned with is_banned := false, ban_until := none, ban_reason := none } ∧
    check_ban_status (db_unban_user wBanned 3) 3 200
      = (db_unban_user wBanned 3, false, BanDetail.noDetail) :=
  check_ban_status_expired_clears wBanned 3 200 rBanned (Timestamp.naive 100)
    rfl rfl rfl (by decide)

/-- C5: the owner is an admin in every state; removing the owner always
fails and leaves the admin table unchanged; removing any non-owner reports
success and the target is no longer an admin afterwards. -/
theorem owner_admin_protected (w : World) (uid : Int) (h : uid ≠ OWNER_ID) :
    db_is_admin w OWNER_ID = true ∧
    db_remove_admin w OWNER_ID = (w, false) ∧
    (db_remove_admin w uid).2 = true ∧
    db_is_admin (db_remove_admin w uid).1 uid = false := by
  refine ⟨by simp [db_is_admin], by simp [db_remove_admin], by simp [db_remove_admin, h], ?_⟩
  unfold db_remove_admin
  rw [if_neg h]
  unfold db_is_admin
  rw [if_neg h]
  rw [List.any_eq_false]
  intro p hp
  have hm := List.mem_filter.mp hp
  have hne : ¬(p.1 == uid) = true := by
    intro hb
    rw [hb] at hm
    simp at hm
  simp only [Bool.and_eq_true]
  intro hcon
  exact hne hcon.1

/-- C5 witness: concrete instance at the freshly initialized state and
target id `123`.  -/
theorem owner_admin_protected_witness :
    db_is_admin wBase OWNER_ID = true ∧
    db_remove_admin wBase OWNER_ID = (wBase, false) ∧
    (db_remove_admin wBase 123).2 = true ∧
    db_is_admin (db_remove_admin wBase 123).1 123 = false :=
  owner_admin_protected wBase 123 (by decide)

/-- C9: a `/ban` whose target is itself an admin is refused before any
mutation: the state is returned unchanged and the caller receives the
refusal reply. -/
theorem cmd_ban_admin_immune (w : World) (caller : Int) (a0 a1 : String)
    (rest : List String) (now : Int) (target : Int)
    (hc : db_is_admin w caller = true) (hp : pyParseInt a0 = some target)
    (ht : db_is_admin w target = true) :
    cmd_ban w caller (a0 :: a1 :: rest) now = (w, [Reply.cannotBanAdmin]) := by
  unfold cmd_ban
  rw [hc]
  simp only [if_true]
  rw [hp]
  simp [ht]

/-- C9 witness: the owner tries to ban the owner (an admin in every state). -/
theorem cmd_ban_admin_immune_witness :
    cmd_ban wBase OWNER_ID ["989062605", "x"] 0 = (wBase, [Reply.cannotBanAdmin]) :=
  cmd_ban_admin_immune wBase OWNER_ID "989062605" "x" [] 0 OWNER_ID
    (by decide) (by decide) (by decide)

/-- Evaluation of `check_rate_limit` on a record whose stored
`last_message_time` is UTC-aware. -/
theorem check_rate_limit_aware_eq (w : World) (uid : Int) (now t : Int) (r : UserRecord)
    (h1 : db_get_user w uid = some r)
    (h2 : r.last_message_time = some (Timestamp.utc t)) :
    check_rate_limit w uid now =
      if ((now - t : ℤ) : ℚ) / 60 < (RATE_LIMIT_MINUTES : ℚ) then
        Except.ok (false, (RATE_LIMIT_MINUTES : ℤ) - pyInt (((now - t : ℤ) : ℚ) / 60))
      else Except.ok (true, 0) := by
  simp [check_rate_limit, h1, h2, Timestamp.utc, Timestamp.replaceUtc]

/-- Evaluation of `check_rate_limit` on a record whose stored
`last_message_time` is timezone-naive: the `tzinfo` test skips the
normalization and the aware-minus-naive subtraction raises. -/
theorem check_rate_limit_naive_eq (w : World) (uid : Int) (now t : Int) (r : UserRecord)
    (h1 : db_get_user w uid = some r)
    (h2 : r.last_message_time = some (Timestamp.naive t)) :
    check_rate_limit w uid now = Except.error PyErr.typeError := by
  simp [check_rate_limit, h1, h2, Timestamp.naive]

/-- C2 counterexample: the claim quantifies over every user record, but a
timezone-naive stored `last_message_time` makes `check_rate_limit` raise
`TypeError` instead of returning a result, and for a stored time in the
future (elapsed is negative) the remaining minutes use Python `int()`
truncation toward zero: the code returns `12` where the claim's
`windowMinutes - floor(elapsed)` gives `13`. -/
theorem check_rate_limit_cex :
    check_rate_limit wNaive 7 600 = Except.error PyErr.typeError ∧
    check_rate_limit wFuture 9 600 = Except.ok (false, 12) ∧
    (RATE_LIMIT_MINUTES : ℤ) - ⌊((600 - 750 : ℤ) : ℚ) / 60⌋ = 13 ∧
    (12 : ℤ) ≠ 13 := by
  refine ⟨rfl, ?_, ?_, by decide⟩
  · rw [check_rate_limit_aware_eq wFuture 9 600 750 rFuture rfl rfl]
    rw [if_pos (by norm_num [RATE_LIMIT_MINUTES])]
    have hq : ((600 - 750 : ℤ) : ℚ) / 60 = -5 / 2 := by norm_num
    unfold pyInt
    rw [hq, if_neg (by norm_num)]
    have hc : ⌈(-5 / 2 : ℚ)⌉ = -2 := by
      rw [Int.ceil_eq_iff]
      norm_num
    rw [hc]
    rfl
  · have hq : ((600 - 750 : ℤ) : ℚ) / 60 = -5 / 2 := by norm_num
    rw [hq]
    have hf : ⌊(-5 / 2 : ℚ)⌋ = -3 := by
      rw [Int.floor_eq_iff]
      norm_num
    rw [hf]
    rfl

/-- C2 (amended): for a record whose stored `last_message_time` is
UTC-aware and not later than `now`, `check_rate_limit` returns allowed with
remaining `0` when there is no record or no prior `last_message_time`;
otherwise it allows iff the elapsed minutes reach `RATE_LIMIT_MINUTES`
(boundary inclusive) and, when blocking, returns
`RATE_LIMIT_MINUTES - floor(elapsed)`.  A timezone-naive stored
`last_message_time` instead raises `TypeError`. -/
theorem check_rate_limit_spec (w : World) (uid : Int) (now : Int) :
    (db_get_user w uid = none → check_rate_limit w uid now = Except.ok (true, 0)) ∧
    (∀ r, db_get_user w uid = some r → r.last_message_time = none →
      check_rate_limit w uid now = Except.ok (true, 0)) ∧
    (∀ r t, db_get_user w uid = some r →
      r.last_message_time = some (Timestamp.utc t) → t ≤ now →
      ((RATE_LIMIT_MINUTES : ℚ) ≤ ((now - t : ℤ) : ℚ) / 60 →
        check_rate_limit w uid now = Except.ok (true, 0)) ∧
      (((now - t : ℤ) : ℚ) / 60 < (RATE_LIMIT_MINUTES : ℚ) →
        check_rate_limit w uid now
          = Except.ok (false, (RATE_LIMIT_MINUTES : ℤ) - ⌊((now - t : ℤ) : ℚ) / 60⌋))) ∧
    (∀ r t, db_get_user w uid = some r →
      r.last_message_time = some (Timestamp.naive t) →
      check_rate_limit w uid now = Except.error PyErr.typeError) := by
  refine ⟨?_, ?_, ?_, ?_⟩
  · intro h
    simp [check_rate_limit, h]
  · intro r h1 h2
    simp [check_rate_limit, h1, h2]
  · intro r t h1 h2 hle
    rw [check_rate_limit_aware_eq w uid now t r h1 h2]
    constructor
    · intro hge
      rw [if_neg (not_lt.mpr hge)]
    · intro hlt
      rw [if_pos hlt]
      have hq : (0 : ℚ) ≤ ((now - t : ℤ) : ℚ) / 60 := by
        apply div_nonneg _ (by norm_num)
        exact_mod_cast sub_nonneg.mpr hle
      unfold pyInt
      rw [if_pos hq]
  · intro r t h1 h2
    exact check_rate_limit_naive_eq w uid now t r h1 h2

/-- C2 witness: user `10` last wrote at instant `0` and is checked at
instant `240` (4 minutes elapsed): blocked with 6 minutes remaining. -/
theorem check_rate_limit_spec_witness :
    check_rate_limit wRated 10 240 = Except.ok (false, 6) := by
  have h := ((check_rate_limit_spec wRated 10 240).2.2.1 rRated 0 rfl rfl
      (by decide)).2 (by norm_num [RATE_LIMIT_MINUTES])
  rw [h]
  have hf : ((240 - 0 : ℤ) : ℚ) / 60 = ((4 : ℤ) : ℚ) := by norm_num
  rw [hf, Int.floor_intCast]
  rfl

/-- C4: the `/ban` duration guard.  A trailing numeric `0` is below the
valid range `1..MAX_BAN_HOURS`, yet the Python truthiness test
`if hours and (hours <= 0 or hours > MAX_BAN_HOURS)` skips the range check
for `hours == 0`: the command proceeds and issues a permanent ban, mutating
the target record and `bans_issued`.  A trailing `721` is rejected with no
mutation and an in-range `24` bans until `now + 24h`, as documented. -/
theorem cmd_ban_zero_hours_bug :
    ((cmd_ban wBase OWNER_ID ["123", "spam", "0"] 0).1.users 123).map
        (fun r => (r.is_banned, r.ban_until, r.ban_reason))
      = some (true, none, some "spam") ∧
    (cmd_ban wBase OWNER_ID ["123", "spam", "0"] 0).1.stats.bans_issued = 1 ∧
    (cmd_ban wBase OWNER_ID ["123", "spam", "0"] 0).2 = [Reply.banSuccess 123] ∧
    cmd_ban wBase OWNER_ID ["123", "spam", "721"] 0 = (wBase, [Reply.banDurationError]) ∧
    ((cmd_ban wBase OWNER_ID ["123", "spam", "24"] 0).1.users 123).map
        (fun r => (r.is_banned, r.ban_until))
      = some (true, some (Timestamp.utc 86400)) :=
  ⟨rfl, rfl, rfl, rfl, rfl⟩

/-- C6 counterexample: an unauthorized caller of `/stats` or `/users`
receives no reply at all (the handlers bare-`return`), and `/help` replies
with the user help text rather than a rejection. -/
theorem silent_gate_cex :
    db_is_admin wBase 555 = false ∧
    cmd_stats wBase 555 = (wBase, []) ∧
    cmd_users wBase 555 = (wBase, []) ∧
    cmd_help wBase 555 = (wBase, [Reply.userHelp]) ∧
    Reply.userHelp ≠ Reply.noPermission :=
  ⟨rfl, rfl, rfl, rfl, by decide⟩

/-- C6 (amended): every admin command is gated on `is_admin` and an
unauthorized call causes no state mutation; `/ban`, `/unban` and `/admin`
reply with the fixed rejection, `/stats` and `/users` reply nothing, and
`/help` replies with the user help text. -/
theorem admin_gate_no_mutation (w : World) (caller : Int) (args : List String) (now : Int)
    (h : db_is_admin w caller = false) :
    cmd_ban w caller args now = (w, [Reply.noPermission]) ∧
    cmd_unban w caller args = (w, [Reply.noPermission]) ∧
    cmd_admin w caller args = (w, [Reply.noPermission]) ∧
    cmd_stats w caller = (w, []) ∧
    cmd_users w caller = (w, []) ∧
    cmd_help w caller = (w, [Reply.userHelp]) := by
  unfold cmd_ban cmd_unban cmd_admin cmd_stats cmd_users cmd_help
  rw [h]
  simp

/-- C6 witness: concrete non-admin caller `555` on the fresh state. -/
theorem admin_gate_no_mutation_witness :
    cmd_ban wBase 555 ["1", "x"] 0 = (wBase, [Reply.noPermission]) ∧
    cmd_unban wBase 555 ["1", "x"] = (wBase, [Reply.noPermission]) ∧
    cmd_admin wBase 555 ["1", "x"] = (wBase, [Reply.noPermission]) ∧
    cmd_stats wBase 555 = (wBase, []) ∧
    cmd_users wBase 555 = (wBase, []) ∧
    cmd_help wBase 555 = (wBase, [Reply.userHelp]) :=
  admin_gate_no_mutation wBase 555 ["1", "x"] 0 rfl

/-- C7: `check_rate_limit` normalizes only timestamps that already carry a
timezone (the source tests `if last_time.tzinfo:` before the `replace`), so
a timezone-naive stored `last_message_time` reaches the aware-minus-naive
subtraction and the call raises `TypeError` instead of returning a result;
`check_ban_status`, by contrast, normalizes `ban_until` unconditionally and
correctly clears the expired ban. -/
theorem rate_limit_naive_typeerror_bug :
    check_rate_limit wNaive 7 600 = Except.error PyErr.typeError ∧
    (check_ban_status wBanned 3 200).2 = (false, BanDetail.noDetail) ∧
    ((check_ban_status wBanned 3 200).1.users 3).map
        (fun r => (r.is_banned, r.ban_until, r.ban_reason)) = some (false, none, none) :=
  ⟨rfl, rfl, rfl⟩

/-- `is_banned = false` implies the ban columns are cleared. -/
def banInv (r : UserRecord) : Prop :=
  r.is_banned = false → r.ban_until = none ∧ r.ban_reason = none

/-- Every stored user record satisfies `banInv`. -/
def WorldBanInv (w : World) : Prop :=
  ∀ uid r, w.users uid = some r → banInv r

theorem worldBanInv_setUser (w : World) (uid : Int) (r : UserRecord)
    (hw : WorldBanInv w) (hr : banInv r) : WorldBanInv (setUser w uid r) := by
  intro x rx hx
  by_cases hxe : x = uid
  · subst hxe
    rw [setUser_users_self] at hx
    cases hx
    exact hr
  · rw [setUser_users_other w uid x r hxe] at hx
    exact hw x rx hx

/-- C8: the invariant `is_banned = false → ban_until = none ∧
ban_reason = none` holds for a freshly created record and is preserved by
every operation touching ban state: both `save_user` call shapes,
`ban_user`, `unban_user`, the message counters, and the ban-expiry
auto-clear inside `check_ban_status`. -/
theorem ban_invariant_preserved (w : World) (uid : Int) (un fn ln : Option String)
    (reason : String) (bu : Option Timestamp) (t : Timestamp) (now : Int)
    (hw : WorldBanInv w) :
    banInv (defaultUser un fn ln) ∧
    WorldBanInv (db_save_user_display w uid un fn ln) ∧
    WorldBanInv (db_save_user_bare w uid) ∧
    WorldBanInv (db_ban_user w uid reason bu) ∧
    WorldBanInv (db_unban_user w uid) ∧
    WorldBanInv (db_update_user_last_message w uid t) ∧
    WorldBanInv (db_update_user_stats w uid) ∧
    WorldBanInv (check_ban_status w uid now).1 := by
  have hdef : ∀ a b c : Option String, banInv (defaultUser a b c) := by
    intro a b c _
    exact ⟨rfl, rfl⟩
  have hunban : WorldBanInv (db_unban_user w uid) := by
    unfold db_unban_user
    cases hu : w.users uid with
    | none => exact hw
    | some u =>
      apply worldBanInv_setUser _ _ _ hw
      intro _
      exact ⟨rfl, rfl⟩
  refine ⟨hdef un fn ln, ?_, ?_, ?_, hunban, ?_, ?_, ?_⟩
  · unfold db_save_user_display
    cases hu : w.users uid with
    | none => exact worldBanInv_setUser _ _ _ hw (hdef un fn ln)
    | some r =>
      apply worldBanInv_setUser _ _ _ hw
      intro hb
      exact hw uid r hu hb
  · unfold db_save_user_bare
    cases hu : w.users uid with
    | none => exact worldBanInv_setUser _ _ _ hw (hdef none none none)
    | some r => exact hw
  · unfold db_ban_user
    cases hu : w.users uid with
    | none => exact hw
    | some r =>
      apply worldBanInv_setUser _ _ _ hw
      intro hb
      exact Bool.noConfusion hb
  · unfold db_update_user_last_message
    cases hu : w.users uid with
    | none => exact hw
    | some r =>
      apply worldBanInv_setUser _ _ _ hw
      intro hb
      exact hw uid r hu hb
  · unfold db_update_user_stats
    cases hu : w.users uid with
    | none => exact hw
    | some r =>
      apply worldBanInv_setUser _ _ _ hw
      intro hb
      exact hw uid r hu hb
  · unfold check_ban_status
    cases hu : db_get_user w uid with
    | none => exact hw
    | some u =>
      dsimp only
      by_cases hb : u.is_banned = false
      · rw [if_pos hb]
        exact hw
      · rw [if_neg hb]
        cases hbu : u.ban_until with
        | none => exact hw
        | some b =>
          dsimp only
          by_cases ht : (Timestamp.replaceUtc b).secs < now
          · rw [if_pos ht]
            exact hunban
          · rw [if_neg ht]
            exact hw

/-- C8 witness: the invariant holds for a fresh record and the fresh state,
instantiated at concrete arguments. -/
theorem ban_invariant_preserved_witness :
    banInv (defaultUser none none none) :=
  (ban_invariant_preserved wBase 5 none none none "r" none (Timestamp.utc 0) 0
    (by intro uid r h; simp [wBase] at h)).1

/-- `check_ban_status` only ever clears ban columns: the
`last_message_time` and `messages_sent` of any stored record survive it. -/
theorem cbs_users_fields (w : World) (uid x : Int) (now : Int) (r : UserRecord)
    (h : w.users x = some r) :
    ∃ r2, ((check_ban_status w uid now).1).users x = some r2 ∧
      r2.last_message_time = r.last_message_time ∧
      r2.messages_sent = r.messages_sent := by
  have hunban : ∃ r2, (db_unban_user w uid).users x = some r2 ∧
      r2.last_message_time = r.last_message_time ∧
      r2.messages_sent = r.messages_sent := by
    unfold db_unban_user
    cases hu : w.users uid with
    | none => exact ⟨r, h, rfl, rfl⟩
    | some u =>
      by_cases hxe : x = uid
      · subst hxe
        rw [h] at hu
        cases hu
        exact ⟨_, setUser_users_self .., rfl, rfl⟩
      · rw [setUser_users_other _ _ _ _ hxe]
        exact ⟨r, h, rfl, rfl⟩
  unfold check_ban_status
  cases hu : db_get_user w uid with
  | none => exact ⟨r, h, rfl, rfl⟩
  | some u =>
    dsimp only
    by_cases hb : u.is_banned = false
    · rw [if_pos hb]
      exact ⟨r, h, rfl, rfl⟩
    · rw [if_neg hb]
      cases hbu : u.ban_until with
      | none => exact ⟨r, h, rfl, rfl⟩
      | some b =>
        dsimp only
        by_cases ht : (Timestamp.replaceUtc b).secs < now
        · rw [if_pos ht]
          exact hunban
        · rw [if_neg ht]
          exact ⟨r, h, rfl, rfl⟩

/-- The relay block either stamps the user (`last_message_time := now`,
`messages_sent + 1`) on a successful relay, or leaves every user row
untouched, and reports a success count only when it is positive. -/
theorem relayPhase_users_fields (w : World) (uid : Int) (sendOk : Int → Bool) (now : Int)
    (r : UserRecord) (h : w.users uid = some r) :
    ∃ r2, ((relayPhase w uid sendOk now).1).users uid = some r2 ∧
      ((relayPhase w uid sendOk now).2.isRelayed = true →
        r2.last_message_time = some (Timestamp.utc now) ∧
        r2.messages_sent = r.messages_sent + 1) ∧
      ((relayPhase w uid sendOk now).2.isRelayed = false →
        r2.last_message_time = r.last_message_time ∧
        r2.messages_sent = r.messages_sent) ∧
      (∀ k, (relayPhase w uid sendOk now).2 = Outcome.relayed k → 0 < k) := by
  simp only [relayPhase]
  by_cases hk : 0 < (relay sendOk (db_get_admins w)).1
  · rw [if_pos hk]
    have h1 : (db_update_user_last_message w uid (Timestamp.utc now)).users uid
        = some { r with last_message_time := some (Timestamp.utc now) } := by
      unfold db_update_user_last_message
      rw [h]
      exact setUser_users_self ..
    have h2 : (db_update_user_stats
          (db_update_user_last_message w uid (Timestamp.utc now)) uid).users uid
        = some { r with last_message_time := some (Timestamp.utc now),
                        messages_sent := r.messages_sent + 1 } := by
      unfold db_update_user_stats
      rw [h1]
      exact setUser_users_self ..
    refine ⟨_, h2, fun _ => ⟨rfl, rfl⟩, ?_, ?_⟩
    · intro habs
      exact Bool.noConfusion habs
    · intro k he
      cases he
      exact hk
  · rw [if_neg hk]
    refine ⟨r, h, ?_, fun _ => ⟨rfl, rfl⟩, ?_⟩
    · intro habs
      exact Bool.noConfusion habs
    · intro k he
      exact Outcome.noConfusion he

/-- C10: `last_message_time` and `messages_sent` of the sender change only
when the relay succeeds for at least one destination: on a successful relay
they become the current instant and the old count plus one, and on every
other path (banned reply, rate limiting, uncaught rate-check error, relay
failure to all destinations) both fields are exactly preserved; a relayed
outcome always carries a positive success count. -/
theorem user_fields_updated_only_on_relay (w : World) (uid : Int) (un fn ln : Option String)
    (sendOk : Int → Bool) (now : Int) (r : UserRecord) (h : w.users uid = some r) :
    ∃ r2, ((handle_user_message w uid un fn ln sendOk now).1).users uid = some r2 ∧
      ((handle_user_message w uid un fn ln sendOk now).2.isRelayed = true →
        r2.last_message_time = some (Timestamp.utc now) ∧
        r2.messages_sent = r.messages_sent + 1) ∧
      ((handle_user_message w uid un fn ln sendOk now).2.isRelayed = false →
        r2.last_message_time = r.last_message_time ∧
        r2.messages_sent = r.messages_sent) ∧
      (∀ k, (handle_user_message w uid un fn ln sendOk now).2 = Outcome.relayed k → 0 < k) := by
  simp only [handle_user_message]
  set w1 : World := { w with stats := addStats w.stats 1 0 0 0 0 } with hw1
  have hw1u : w1.users uid = some r := h
  have hsave : (db_save_user_display w1 uid un fn ln).users uid
      = some { r with username := un, first_name := fn, last_name := ln } := by
    unfold db_save_user_display
    rw [hw1u]
    exact setUser_users_self ..
  set w2 : World := db_save_user_display w1 uid un fn ln with hw2
  obtain ⟨r3, h3, h3l, h3m⟩ := cbs_users_fields w2 uid uid now _ hsave
  rcases hcbs : check_ban_status w2 uid now with ⟨w3, b, d⟩
  rw [hcbs] at h3
  cases b
  · dsimp only
    by_cases ha : db_is_admin w3 uid
    · rw [if_pos ha]
      obtain ⟨r4, h4, hrel, hnot, hpos⟩ := relayPhase_users_fields w3 uid sendOk now r3 h3
      refine ⟨r4, h4, ?_, ?_, hpos⟩
      · intro ht
        refine ⟨(hrel ht).1, ?_⟩
        rw [(hrel ht).2, h3m]
      · intro hf
        refine ⟨?_, ?_⟩
        · rw [(hnot hf).1, h3l]
        · rw [(hnot hf).2, h3m]
    · rw [if_neg ha]
      cases hrl : check_rate_limit w3 uid now with
      | error e =>
        refine ⟨r3, h3, ?_, ?_, ?_⟩
        · intro habs
          exact Bool.noConfusion habs
        · intro _
          refine ⟨?_, ?_⟩
          · rw [h3l]
          · rw [h3m]
        · intro k he
          exact Outcome.noConfusion he
      | ok p =>
        rcases p with ⟨bok, rem⟩
        cases bok
        · dsimp only
          refine ⟨r3, h3, ?_, ?_, ?_⟩
          · intro habs
            exact Bool.noConfusion habs
          · intro _
            refine ⟨?_, ?_⟩
            · rw [h3l]
            · rw [h3m]
          · intro k he
            exact Outcome.noConfusion he
        · dsimp only
          obtain ⟨r4, h4, hrel, hnot, hpos⟩ := relayPhase_users_fields w3 uid sendOk now r3 h3
          refine ⟨r4, h4, ?_, ?_, hpos⟩
          · intro ht
            refine ⟨(hrel ht).1, ?_⟩
            rw [(hrel ht).2, h3m]
          · intro hf
            refine ⟨?_, ?_⟩
            · rw [(hnot hf).1, h3l]
            · rw [(hnot hf).2, h3m]
  · dsimp only
    refine ⟨r3, h3, ?_, ?_, ?_⟩
    · intro habs
      exact Bool.noConfusion habs
    · intro _
      refine ⟨?_, ?_⟩
      · rw [h3l]
      · rw [h3m]
    · intro k he
      exact Outcome.noConfusion he

/-- C10 witness: user `10` (fields `last_message_time = utc 0`,
`messages_sent = 0`) sends at instant `240` and is rate limited: both
fields survive unchanged, matching the blocked branch of the theorem. -/
theorem user_fields_updated_only_on_relay_witness :
    ∃ r2, ((handle_user_message wRated 10 none none none (fun _ => true) 240).1).users 10
        = some r2 ∧
      ((handle_user_message wRated 10 none none none (fun _ => true) 240).2.isRelayed = true →
        r2.last_message_time = some (Timestamp.utc 240) ∧
        r2.messages_sent = rRated.messages_sent + 1) ∧
      ((handle_user_message wRated 10 none none none (fun _ => true) 240).2.isRelayed = false →
        r2.last_message_time = rRated.last_message_time ∧
        r2.messages_sent = rRated.messages_sent) ∧
      (∀ k, (handle_user_message wRated 10 none none none (fun _ => true) 240).2
          = Outcome.relayed k → 0 < k) :=
  user_fields_updated_only_on_relay wRated 10 none none none (fun _ => true) 240 rRated rfl

end Bot
